import Mathlib

/-!
Shallow embedding of the audio-reactive 3D visualization pipeline
(`GdmLiveAudioVisuals3D` in the source, plus the backdrop fragment shader).

Numbers are embedded as exact rationals (`ℚ`); frequency snapshots as lists of
naturals (the byte values 0..255 of a `Uint8Array`).  JS / GLSL math
primitives that are transcendental (`sin`, `cos`, `acos`, `sqrt`, `pow`) are
abstracted as parameters, since the claims under verification are algebraic
in them.
-/

namespace Visuals3D

/-- `PARTICLE_COUNT = 5000` (source line 24). -/
def PARTICLE_COUNT : ℕ := 5000

/-- `IDLE_DELAY = 3000` ms (source line 84). -/
def IDLE_DELAY : ℚ := 3000

/-- `FADE_DURATION = 2000` ms (source line 85). -/
def FADE_DURATION : ℚ := 2000

/-- The mean of a frequency snapshot normalized by 255:
`data.reduce((a, b) => a + b, 0) / data.length / 255`.
This is `avgInput` (lines 266-269) on the input analyser's data and
`avgOutput` (lines 291-292) on the output analyser's data. -/
def avgNorm (data : List ℕ) : ℚ :=
  (data.sum : ℚ) / (data.length : ℚ) / 255

/-- `highFreq = (outputData[10] + outputData[11]) / 2 / 255` (line 293).
Out-of-range reads are modelled with default 0 (`getD`); every theorem that
touches them carries the in-bounds hypothesis, under which `getD` is the
actual entry. -/
def highFreqOf (data : List ℕ) : ℚ :=
  ((data.getD 10 0 : ℚ) + (data.getD 11 0 : ℚ)) / 2 / 255

/-- `THREE.MathUtils.smootherstep(x, min, max)`: clamps `x` into `[min, max]`,
rescales, and applies the quintic `x³(x(6x - 15) + 10)` (three.js MathUtils). -/
def smootherstep (x minv maxv : ℚ) : ℚ :=
  if x ≤ minv then 0
  else if x ≥ maxv then 1
  else
    let y := (x - minv) / (maxv - minv)
    y * y * y * (y * (y * 6 - 15) + 10)

/-- `THREE.MathUtils.lerp(x, y, t) = (1 - t) * x + t * y` (three.js MathUtils). -/
def lerp (x y t : ℚ) : ℚ := (1 - t) * x + t * y

/-- Lines 272-274: `if (avgInput > 0.01) { this.lastInputTime = t; }`. -/
def nextLastInputTime (avgInput last t : ℚ) : ℚ :=
  if avgInput > 1/100 then t else last

/-- Lines 277-280:
`idleProgress = Math.max(0, (timeSinceLastInput - IDLE_DELAY) / FADE_DURATION)`. -/
def idleProgress (timeSinceLastInput : ℚ) : ℚ :=
  max 0 ((timeSinceLastInput - IDLE_DELAY) / FADE_DURATION)

/-- Line 281: `idleFactor = 1.0 - THREE.MathUtils.smootherstep(idleProgress, 0, 1)`,
as a function of the elapsed time since the last input. -/
def idleFactorOf (timeSinceLastInput : ℚ) : ℚ :=
  1 - smootherstep (idleProgress timeSinceLastInput) 0 1

/-- The idle state machine step of lines 272-281 at frame time `t`: feed the
input presence `avgInput` and the carried `lastInputTime`; returns the updated
`lastInputTime` and the frame's `idleFactor`. -/
def idleStep (avgInput last t : ℚ) : ℚ × ℚ :=
  let last' := nextLastInputTime avgInput last t
  (last', idleFactorOf (t - last'))

/-- GLSL-style clamp, used both by the spec's idle formula and by the
embedded `smoothstep`. -/
def clampQ (x lo hi : ℚ) : ℚ := min (max x lo) hi

/-- The spec's quintic `6p^5 - 15p^4 + 10p^3`. -/
def quintic (p : ℚ) : ℚ := 6*p^5 - 15*p^4 + 10*p^3

/-- The idle-factor formula exactly as the spec words it (for refinement
against the code's `idleFactorOf`): if `elapsed <= IDLE_DELAY` then 1, else
`1 - smootherstep(clamp((elapsed - IDLE_DELAY) / FADE_DURATION, 0, 1))` with
the raw quintic smootherstep. -/
def specIdleFactor (elapsed : ℚ) : ℚ :=
  if elapsed ≤ IDLE_DELAY then 1
  else 1 - quintic (clampQ ((elapsed - IDLE_DELAY) / FADE_DURATION) 0 1)

/-- The per-frame scalar feature triple of the spec's data model, as the
animation loop computes it: `avgEnergy`/`highBandEnergy` from the output
analyser's snapshot (lines 291-293), `inputPresence` from the input
analyser's snapshot (lines 266-269). -/
structure FeatureVector where
  avgEnergy : ℚ
  highBandEnergy : ℚ
  inputPresence : ℚ
  deriving Repr, DecidableEq

/-- Feature extraction of one frame from the two analyser snapshots. -/
def extractFeatures (inputData outputData : List ℕ) : FeatureVector :=
  { avgEnergy := avgNorm outputData
    highBandEnergy := highFreqOf outputData
    inputPresence := avgNorm inputData }

/-- The fixed high-band bin indices read at line 293. -/
def HIGH_BAND_INDICES : List ℕ := [10, 11]

/-- Modelled from the spec: the `Analyser` class (imported from `./analyser`)
is not among the sources, only its call sites are; per the spec (§4.2, §9)
its two instantiations configure window size 512 (256 frequency bins) for one
binding and window size 128 (64 bins) for the other. -/
def analyserBinCounts : List ℕ := [256, 64]

/-- Abstract transcendental primitives of `Math` / GLSL.  The embedding never
evaluates them; the claims under verification hold for any interpretation. -/
structure MathPrims where
  sin : ℚ → ℚ
  cos : ℚ → ℚ
  acos : ℚ → ℚ
  sqrt : ℚ → ℚ
  pow : ℚ → ℚ → ℚ
  pi : ℚ

/-- The mutable rendering state an animation frame touches: the carried
`lastInputTime`, the particle geometry attributes assigned in `init`
(lines 176-203), and the uniforms / pass parameters written by `animation()`
(lines 286-315). -/
structure VisualsState where
  lastInputTime : ℚ
  startPositions : List (ℚ × ℚ × ℚ)
  aRandom : List (ℚ × ℚ × ℚ)
  backdropRand : ℚ
  backdropIdleFactor : ℚ
  backdropAvgOutput : ℚ
  backdropHighFreq : ℚ
  particleIdleFactor : ℚ
  particleTime : ℚ
  particleOutputAvg : ℚ
  particleOutputHigh : ℚ
  bloomStrength : ℚ
  bloomRadius : ℚ
  afterimageDamp : ℚ
  autoRotateSpeed : ℚ

/-- The particle base positions built in `init` (lines 180-195): for each
`i < PARTICLE_COUNT`, `phi = acos(-1 + 2i/PARTICLE_COUNT)`,
`theta = sqrt(PARTICLE_COUNT·π)·phi`, radius 2, spherical coordinates. -/
def initStartPositions (m : MathPrims) : List (ℚ × ℚ × ℚ) :=
  (List.range PARTICLE_COUNT).map fun (i : ℕ) =>
    let t : ℚ := (i : ℚ)
    let phi := m.acos (-1 + (2 * t) / (PARTICLE_COUNT : ℚ))
    let theta := m.sqrt ((PARTICLE_COUNT : ℚ) * m.pi) * phi
    let radius : ℚ := 2
    (radius * m.cos theta * m.sin phi,
     radius * m.sin theta * m.sin phi,
     radius * m.cos phi)

/-- The state right after `init` (lines 126-256): base positions and the
`aRandom` attribute (fed by a stream `rand` of `Math.random()` draws) are
assigned once; uniforms start at their constructor values
(backdrop lines 132-138, particles lines 206-212, bloom lines 224-229,
afterimage damp at the three.js `AfterimagePass` default 0.96, auto-rotate
speed line 172); `lastInputTime` starts at the construction-time clock
(line 83). -/
def initState (m : MathPrims) (rand : ℕ → ℚ) (t0 : ℚ) : VisualsState :=
  { lastInputTime := t0
    startPositions := initStartPositions m
    aRandom := (List.range PARTICLE_COUNT).map fun (i : ℕ) =>
      (rand (3*i), rand (3*i + 1), rand (3*i + 2))
    backdropRand := 0
    backdropIdleFactor := 1
    backdropAvgOutput := 0
    backdropHighFreq := 0
    particleIdleFactor := 1
    particleTime := 0
    particleOutputAvg := 0
    particleOutputHigh := 0
    bloomStrength := 2.5
    bloomRadius := 0.8
    afterimageDamp := 0.96
    autoRotateSpeed := 0.5 }

/-- One body of `animation()` (lines 261-316) after both analysers have
refilled their buffers: `inputData` / `outputData` are the fresh snapshots,
`t` is `performance.now()` and `rnd` the frame's `Math.random()` draw. -/
def animationStep (inputData outputData : List ℕ) (t rnd : ℚ)
    (s : VisualsState) : VisualsState :=
  let avgInput := avgNorm inputData
  let lastInputTime' := nextLastInputTime avgInput s.lastInputTime t
  let idleFactor := idleFactorOf (t - lastInputTime')
  let avgOutput := avgNorm outputData
  let highFreq := highFreqOf outputData
  { s with
    lastInputTime := lastInputTime'
    backdropRand := rnd * 10000
    backdropIdleFactor := idleFactor
    particleIdleFactor := idleFactor
    backdropAvgOutput := avgOutput
    backdropHighFreq := highFreq
    bloomStrength := (1.5 + avgOutput * 2.0) * idleFactor
    bloomRadius := 0.6 + highFreq * 0.4
    afterimageDamp := lerp 0.96 0.6 (avgOutput ^ 2)
    particleTime := t * 0.001
    particleOutputAvg := avgOutput
    particleOutputHigh := highFreq
    autoRotateSpeed := (0.2 + avgInput * 2.0) * idleFactor }

/-- Error raised when `animation()` dereferences an analyser field that was
never assigned (`this.inputAnalyser.update()`, line 263, on an `undefined`
field). -/
inductive StepError where
  | typeError
  deriving Repr, DecidableEq

/-- `animation()` as it actually executes on the component: the analyser
fields are declared with definite-assignment assertions (lines 74-75) and
only assigned by the `inputNode` / `outputNode` property setters
(lines 90-105), so a frame that runs before both setters were called throws
a `TypeError` at `update()` (lines 263-264) instead of producing features. -/
def animationFrame (inputAnalyserData outputAnalyserData : Option (List ℕ))
    (t rnd : ℚ) (s : VisualsState) : Except StepError VisualsState :=
  match inputAnalyserData with
  | none => .error .typeError
  | some inputData =>
    match outputAnalyserData with
    | none => .error .typeError
    | some outputData => .ok (animationStep inputData outputData t rnd s)

/-- Run `n` animation frames; `frames k` supplies frame `k`'s input snapshot,
output snapshot, clock value and `Math.random()` draw. -/
def runFrames (frames : ℕ → List ℕ × List ℕ × ℚ × ℚ) : ℕ → VisualsState → VisualsState
  | 0, s => s
  | n + 1, s =>
    runFrames frames n
      (animationStep (frames n).1 (frames n).2.1 (frames n).2.2.1 (frames n).2.2.2 s)

/-- GLSL `fract(x) = x - floor(x)`. -/
def fractQ (x : ℚ) : ℚ := x - (⌊x⌋ : ℚ)

/-- GLSL `mix(x, y, a)` on scalars. -/
def glslMix (x y a : ℚ) : ℚ := x * (1 - a) + y * a

/-- GLSL `mix` componentwise on `vec3`. -/
def mix3 (x y : ℚ × ℚ × ℚ) (a : ℚ) : ℚ × ℚ × ℚ :=
  (glslMix x.1 y.1 a, glslMix x.2.1 y.2.1 a, glslMix x.2.2 y.2.2 a)

/-- GLSL `smoothstep(edge0, edge1, x)`. -/
def glslSmoothstep (e0 e1 x : ℚ) : ℚ :=
  let t := clampQ ((x - e0) / (e1 - e0)) 0 1
  t * t * (3 - 2 * t)

/-- Backdrop shader: `hash(n) = fract(sin(n) * 43758.5453)`. -/
def hashG (m : MathPrims) (n : ℚ) : ℚ := fractQ (m.sin n * 43758.5453)

/-- Backdrop shader: `hash3(n) = vec3(hash(n), hash(n + 7.345), hash(n - 4.234))`. -/
def hash3G (m : MathPrims) (n : ℚ) : ℚ × ℚ × ℚ :=
  (hashG m n, hashG m (n + 7.345), hashG m (n - 4.234))

/-- Backdrop shader: `circle(uv, pos, radius, blur) =
smoothstep(radius, radius - blur, length(uv - pos))`. -/
def circleG (m : MathPrims) (uv pos : ℚ × ℚ) (radius blur : ℚ) : ℚ :=
  let d := m.sqrt ((uv.1 - pos.1)^2 + (uv.2 - pos.2)^2)
  glslSmoothstep radius (radius - blur) d

/-- The backdrop fragment shader's `finalColor` (backdrop-shader.ts lines
43-77): background gradient with hash noise, 30 bokeh circles, glitter.
This value is computed before — and independently of — the `idleFactor`
uniform. -/
def backdropFinalColor (m : MathPrims) (resolution : ℚ × ℚ)
    (rand uAvgOutput uHighFreq : ℚ) (fragCoord : ℚ × ℚ) : ℚ × ℚ × ℚ :=
  let aspectRatio := resolution.1 / resolution.2
  let uv0 : ℚ × ℚ := (fragCoord.1 / resolution.2, fragCoord.2 / resolution.2)
  let uv : ℚ × ℚ := (uv0.1 - (aspectRatio - 1) / 2, uv0.2)
  let distortedUv : ℚ × ℚ :=
    (uv.1 + m.sin (uv.2 * 20 + rand) * uAvgOutput * 0.03,
     uv.2 + m.cos (uv.1 * 20 + rand) * uAvgOutput * 0.03)
  let fromC : ℚ × ℚ × ℚ := (0.5 + uAvgOutput * 0.4, 0.1, 0.1)
  let toC : ℚ × ℚ × ℚ := (0.1, 0, 0)
  let noise := 0.02 * hashG m (distortedUv.1 + distortedUv.2 * 100)
  let base := mix3 fromC toC distortedUv.2
  let grad : ℚ × ℚ × ℚ := (base.1 + noise, base.2.1 + noise, base.2.2 + noise)
  let withBokeh := (List.range 30).foldl (fun acc i =>
      let fi : ℚ := (i : ℚ)
      let h := hash3G m fi
      let pos : ℚ × ℚ := (h.1 * aspectRatio, h.2.1)
      let radius := glslMix 0.05 0.25 h.2.2 * (1 + uAvgOutput * 0.5)
      let color0 := mix3 (1, 0.2, 0.1) (1, 0.8, 0.2) h.2.1
      let color := mix3 color0 (1, 1, 0.2) uHighFreq
      let c := circleG m distortedUv pos radius (radius * 0.8) * 0.5
      (acc.1 + color.1 * c, acc.2.1 + color.2.1 * c, acc.2.2 + color.2.2 * c))
    grad
  let glitter :=
    m.pow (hashG m (fragCoord.1 * 123.4 + fragCoord.2 * 321.6 + rand)) 100
      * (0.5 + uHighFreq * 3)
  (withBokeh.1 + glitter, withBokeh.2.1 + glitter, withBokeh.2.2 + glitter)

/-- The backdrop fragment shader's output (backdrop-shader.ts line 79):
`fragmentColor = vec4(finalColor * idleFactor, 1.0)`. -/
def backdropFragment (m : MathPrims) (resolution : ℚ × ℚ)
    (rand idleFactor uAvgOutput uHighFreq : ℚ) (fragCoord : ℚ × ℚ) :
    ℚ × ℚ × ℚ × ℚ :=
  let c := backdropFinalColor m resolution rand uAvgOutput uHighFreq fragCoord
  (c.1 * idleFactor, c.2.1 * idleFactor, c.2.2 * idleFactor, 1)

/-- A concrete interpretation of the abstract math primitives, used only to
instantiate witnesses. -/
def trivialPrims : MathPrims :=
  { sin := fun _ => 0, cos := fun _ => 0, acos := fun _ => 0
    sqrt := fun _ => 0, pow := fun _ _ => 0, pi := 0 }

/-- A concrete state, used only to instantiate witnesses. -/
def sampleState : VisualsState := initState trivialPrims (fun _ => 0) 0

/-! Helper lemmas about the quintic and `smootherstep`. -/

lemma quintic_eval (p : ℚ) : quintic p = p * p * p * (p * (p * 6 - 15) + 10) := by
  unfold quintic; ring

lemma quintic_zero : quintic 0 = 0 := by norm_num [quintic]

lemma quintic_one : quintic 1 = 1 := by norm_num [quintic]

lemma quintic_nonneg {p : ℚ} (h0 : 0 ≤ p) (h1 : p ≤ 1) : 0 ≤ quintic p := by
  unfold quintic
  nlinarith [pow_nonneg h0 3, sq_nonneg p, sq_nonneg (p-1), sq_nonneg (2*p-1),
    mul_nonneg (mul_nonneg h0 h0) h0]

lemma quintic_le_one {p : ℚ} (h0 : 0 ≤ p) (h1 : p ≤ 1) : quintic p ≤ 1 := by
  unfold quintic
  nlinarith [mul_nonneg (mul_nonneg (sub_nonneg.2 h1) (sub_nonneg.2 h1)) (sub_nonneg.2 h1),
    sq_nonneg p, sq_nonneg (2*p-1)]

lemma quintic_hasDerivAt (x : ℝ) :
    HasDerivAt (fun x : ℝ => 6*x^5 - 15*x^4 + 10*x^3) (30*x^4 - 60*x^3 + 30*x^2) x := by
  have h5 := (hasDerivAt_pow 5 x).const_mul (6 : ℝ)
  have h4 := (hasDerivAt_pow 4 x).const_mul (15 : ℝ)
  have h3 := (hasDerivAt_pow 3 x).const_mul (10 : ℝ)
  have h0 := (h5.sub h4).add h3
  convert h0 using 1
  ring

lemma quinticR_strictMonoOn :
    StrictMonoOn (fun x : ℝ => 6*x^5 - 15*x^4 + 10*x^3) (Set.Icc 0 1) := by
  apply strictMonoOn_of_deriv_pos (convex_Icc 0 1)
  · exact (by continuity :
      Continuous fun x : ℝ => 6*x^5 - 15*x^4 + 10*x^3).continuousOn
  · intro x hx
    rw [interior_Icc] at hx
    rw [(quintic_hasDerivAt x).deriv]
    nlinarith [sq_nonneg (x*(x-1)), mul_pos hx.1 (sub_pos.2 hx.2)]

lemma quintic_strictMono {a b : ℚ} (ha : 0 ≤ a) (hab : a < b) (hb : b ≤ 1) :
    quintic a < quintic b := by
  have hb0 : (0:ℚ) ≤ b := le_trans ha (le_of_lt hab)
  have ha1 : a ≤ 1 := le_of_lt (lt_of_lt_of_le hab hb)
  have haR : ((a:ℝ)) ∈ Set.Icc (0:ℝ) 1 := ⟨by exact_mod_cast ha, by exact_mod_cast ha1⟩
  have hbR : ((b:ℝ)) ∈ Set.Icc (0:ℝ) 1 := ⟨by exact_mod_cast hb0, by exact_mod_cast hb⟩
  have h := quinticR_strictMonoOn haR hbR (by exact_mod_cast hab)
  simp only at h
  unfold quintic
  exact_mod_cast h

lemma quintic_mono {a b : ℚ} (ha : 0 ≤ a) (hab : a ≤ b) (hb : b ≤ 1) :
    quintic a ≤ quintic b := by
  rcases eq_or_lt_of_le hab with h | h
  · rw [h]
  · exact le_of_lt (quintic_strictMono ha h hb)

lemma quintic_lipschitz {a b : ℚ} (ha : 0 ≤ a) (hab : a ≤ b) (hb : b ≤ 1) :
    quintic b - quintic a ≤ 15/8 * (b - a) := by
  unfold quintic
  nlinarith [sq_nonneg (a+b-1), sq_nonneg (a-b),
    mul_nonneg (sub_nonneg.2 hab) (sq_nonneg (a+b-1)),
    mul_nonneg (sub_nonneg.2 hab) (sq_nonneg (a-b)),
    mul_nonneg (mul_nonneg ha (sub_nonneg.2 hb)) (sub_nonneg.2 hab),
    mul_nonneg (sub_nonneg.2 hab) (sq_nonneg ((2*a-1)*(2*b-1))),
    mul_nonneg (sub_nonneg.2 hab) (sq_nonneg (a+b)),
    sq_nonneg ((a-b)*(a+b-1)), sq_nonneg ((2*a-1)*(2*b-1))]

/-- `THREE.MathUtils.smootherstep x 0 1` is the quintic applied to the
clamped argument. -/
lemma smootherstep_eq_quintic_clamp (x : ℚ) :
    smootherstep x 0 1 = quintic (clampQ x 0 1) := by
  unfold smootherstep clampQ
  rcases le_or_lt x 0 with h0 | h0
  · rw [if_pos h0]
    have : max x 0 = 0 := max_eq_right h0
    rw [this]
    norm_num [quintic]
  · rw [if_neg (not_le.2 h0)]
    have hmax : max x 0 = x := max_eq_left (le_of_lt h0)
    rcases le_or_lt 1 x with h1 | h1
    · rw [if_pos h1, hmax, min_eq_right h1]
      norm_num [quintic]
    · rw [if_neg (not_le.2 h1), hmax, min_eq_left (le_of_lt h1)]
      rw [quintic_eval]
      norm_num

lemma clampQ_mem (x : ℚ) : 0 ≤ clampQ x 0 1 ∧ clampQ x 0 1 ≤ 1 := by
  unfold clampQ
  exact ⟨le_min (le_max_right x 0) zero_le_one, min_le_right _ _⟩

lemma smootherstep_bounds (x : ℚ) :
    0 ≤ smootherstep x 0 1 ∧ smootherstep x 0 1 ≤ 1 := by
  rw [smootherstep_eq_quintic_clamp]
  exact ⟨quintic_nonneg (clampQ_mem x).1 (clampQ_mem x).2,
    quintic_le_one (clampQ_mem x).1 (clampQ_mem x).2⟩

lemma clampQ_of_mem {x : ℚ} (h0 : 0 ≤ x) (h1 : x ≤ 1) : clampQ x 0 1 = x := by
  unfold clampQ
  rw [max_eq_left h0, min_eq_left h1]

lemma clampQ_mono {x y : ℚ} (h : x ≤ y) : clampQ x 0 1 ≤ clampQ y 0 1 :=
  min_le_min (max_le_max h (le_refl 0)) (le_refl 1)

lemma clampQ_lip {x y : ℚ} (h : x ≤ y) : clampQ y 0 1 - clampQ x 0 1 ≤ y - x := by
  unfold clampQ
  rcases le_total x 0 with hx | hx <;> rcases le_total y 0 with hy | hy <;>
    rcases le_total x 1 with hx1 | hx1 <;> rcases le_total y 1 with hy1 | hy1 <;>
    simp [max_eq_left, max_eq_right, min_eq_left, min_eq_right, *] <;> linarith

lemma smootherstep_mono {x y : ℚ} (h : x ≤ y) :
    smootherstep x 0 1 ≤ smootherstep y 0 1 := by
  rw [smootherstep_eq_quintic_clamp, smootherstep_eq_quintic_clamp]
  exact quintic_mono (clampQ_mem x).1 (clampQ_mono h) (clampQ_mem y).2

lemma smootherstep_lip {x y : ℚ} (h : x ≤ y) :
    smootherstep y 0 1 - smootherstep x 0 1 ≤ 15/8 * (y - x) := by
  rw [smootherstep_eq_quintic_clamp, smootherstep_eq_quintic_clamp]
  have h1 := quintic_lipschitz (clampQ_mem x).1 (clampQ_mono h) (clampQ_mem y).2
  have h2 := clampQ_lip h
  nlinarith

lemma idleProgress_mono {e f : ℚ} (h : e ≤ f) : idleProgress e ≤ idleProgress f := by
  unfold idleProgress
  apply max_le_max (le_refl 0)
  have hpos : (0:ℚ) < FADE_DURATION := by norm_num [FADE_DURATION]
  exact (div_le_div_iff_of_pos_right hpos).2 (by linarith)

lemma idleProgress_lip {e f : ℚ} (h : e ≤ f) :
    idleProgress f - idleProgress e ≤ (f - e) / FADE_DURATION := by
  unfold idleProgress FADE_DURATION IDLE_DELAY
  rcases le_total ((e - 3000) / 2000) 0 with he | he <;>
    rcases le_total ((f - 3000) / 2000) 0 with hf | hf <;>
    simp [max_eq_left, max_eq_right, *] <;> linarith

/-- The code's idle factor equals the spec's formula
(`1` inside the grace period, `1 - quintic(clamp(progress))` after). -/
lemma idleFactorOf_eq_spec (e : ℚ) : idleFactorOf e = specIdleFactor e := by
  unfold idleFactorOf specIdleFactor idleProgress
  rw [smootherstep_eq_quintic_clamp]
  have hclamp : clampQ (max 0 ((e - IDLE_DELAY) / FADE_DURATION)) 0 1 =
      clampQ ((e - IDLE_DELAY) / FADE_DURATION) 0 1 := by
    unfold clampQ
    rw [max_comm 0 ((e - IDLE_DELAY) / FADE_DURATION), max_assoc, max_self]
  rw [hclamp]
  rcases le_or_lt e IDLE_DELAY with h | h
  · rw [if_pos h]
    have hr : (e - IDLE_DELAY) / FADE_DURATION ≤ 0 := by
      apply div_nonpos_of_nonpos_of_nonneg (by linarith) (by norm_num [FADE_DURATION])
    have : clampQ ((e - IDLE_DELAY) / FADE_DURATION) 0 1 = 0 := by
      unfold clampQ
      rw [max_eq_right hr, min_eq_left zero_le_one]
    rw [this, quintic_zero]
    norm_num
  · rw [if_neg (not_le.2 h)]

lemma idleFactorOf_bounds (e : ℚ) : 0 ≤ idleFactorOf e ∧ idleFactorOf e ≤ 1 := by
  unfold idleFactorOf
  have h := smootherstep_bounds (idleProgress e)
  exact ⟨by linarith [h.2], by linarith [h.1]⟩

lemma idleFactorOf_one {e : ℚ} (h : e ≤ IDLE_DELAY) : idleFactorOf e = 1 := by
  rw [idleFactorOf_eq_spec]
  unfold specIdleFactor
  rw [if_pos h]

lemma idleFactorOf_zero {e : ℚ} (h : IDLE_DELAY + FADE_DURATION ≤ e) :
    idleFactorOf e = 0 := by
  unfold idleFactorOf
  rw [smootherstep_eq_quintic_clamp]
  have h1 : (1:ℚ) ≤ (e - IDLE_DELAY) / FADE_DURATION := by
    rw [le_div_iff₀ (by norm_num [FADE_DURATION] : (0:ℚ) < FADE_DURATION)]
    simp only [IDLE_DELAY, FADE_DURATION] at h ⊢
    linarith
  have h2 : idleProgress e = (e - IDLE_DELAY) / FADE_DURATION := by
    unfold idleProgress
    exact max_eq_right (le_trans zero_le_one h1)
  rw [h2]
  have h3 : clampQ ((e - IDLE_DELAY) / FADE_DURATION) 0 1 = 1 := by
    unfold clampQ
    rw [max_eq_left (le_trans zero_le_one h1), min_eq_right h1]
  rw [h3, quintic_one]
  norm_num

lemma idleFactorOf_strictAnti {e f : ℚ} (he : IDLE_DELAY ≤ e) (hef : e < f)
    (hf : f ≤ IDLE_DELAY + FADE_DURATION) : idleFactorOf f < idleFactorOf e := by
  unfold idleFactorOf
  have hpos : (0:ℚ) < FADE_DURATION := by norm_num [FADE_DURATION]
  have hpe0 : 0 ≤ (e - IDLE_DELAY) / FADE_DURATION := div_nonneg (by linarith) (le_of_lt hpos)
  have hpf0 : 0 ≤ (f - IDLE_DELAY) / FADE_DURATION := div_nonneg (by linarith) (le_of_lt hpos)
  have hpf1 : (f - IDLE_DELAY) / FADE_DURATION ≤ 1 := by
    rw [div_le_one hpos]
    linarith
  have hlt : (e - IDLE_DELAY) / FADE_DURATION < (f - IDLE_DELAY) / FADE_DURATION :=
    (div_lt_div_iff_of_pos_right hpos).2 (by linarith)
  have hpe : idleProgress e = (e - IDLE_DELAY) / FADE_DURATION := by
    unfold idleProgress; exact max_eq_right hpe0
  have hpf : idleProgress f = (f - IDLE_DELAY) / FADE_DURATION := by
    unfold idleProgress; exact max_eq_right hpf0
  rw [hpe, hpf, smootherstep_eq_quintic_clamp, smootherstep_eq_quintic_clamp,
    clampQ_of_mem hpe0 (by linarith), clampQ_of_mem hpf0 hpf1]
  have := quintic_strictMono hpe0 hlt hpf1
  linarith

lemma idleFactorOf_antitone {e f : ℚ} (h : e ≤ f) :
    idleFactorOf f ≤ idleFactorOf e := by
  unfold idleFactorOf
  linarith [smootherstep_mono (idleProgress_mono h)]

lemma idleFactorOf_lip {e f : ℚ} (h : e ≤ f) :
    idleFactorOf e - idleFactorOf f ≤ 15/8 * ((f - e) / FADE_DURATION) := by
  unfold idleFactorOf
  have h1 := smootherstep_lip (idleProgress_mono h)
  have h2 := idleProgress_lip h
  nlinarith [h1, h2]

lemma idleStep_silent (last t : ℚ) :
    idleStep 0 last t = (last, idleFactorOf (t - last)) := by
  unfold idleStep nextLastInputTime
  norm_num

/-- C1: the idle state machine follows the specified rule — presence above the
0.01 threshold resets `lastActiveTimestamp` to the frame time, otherwise the
idle factor is 1 inside the 3000 ms grace period and
`1 - smootherstep(clamp((elapsed - IDLE_DELAY) / FADE_DURATION, 0, 1))` after;
under zero presence the factor is 1 through the grace period, strictly
decreases across the fade window, then stays 0; and a spike above the
threshold yields factor 1 on that same frame. -/
theorem C1_idle_state_machine :
    (∀ avg last t : ℚ, 1/100 < avg → (idleStep avg last t).1 = t) ∧
    (∀ avg last t : ℚ, avg ≤ 1/100 → (idleStep avg last t).1 = last) ∧
    (∀ avg last t : ℚ, (idleStep avg last t).2 =
        specIdleFactor (t - (idleStep avg last t).1)) ∧
    (∀ last t : ℚ, t - last ≤ IDLE_DELAY → (idleStep 0 last t).2 = 1) ∧
    (∀ last t₁ t₂ : ℚ, IDLE_DELAY ≤ t₁ - last → t₁ < t₂ →
        t₂ - last ≤ IDLE_DELAY + FADE_DURATION →
        (idleStep 0 last t₂).2 < (idleStep 0 last t₁).2) ∧
    (∀ last t : ℚ, IDLE_DELAY + FADE_DURATION ≤ t - last → (idleStep 0 last t).2 = 0) ∧
    (∀ avg last t : ℚ, 1/100 < avg → (idleStep avg last t).2 = 1) := by
  refine ⟨?_, ?_, ?_, ?_, ?_, ?_, ?_⟩
  · intro avg last t h
    unfold idleStep nextLastInputTime
    simp only [if_pos h]
  · intro avg last t h
    unfold idleStep nextLastInputTime
    simp only [if_neg (not_lt.2 h)]
  · intro avg last t
    unfold idleStep
    exact idleFactorOf_eq_spec _
  · intro last t h
    rw [idleStep_silent]
    exact idleFactorOf_one h
  · intro last t₁ t₂ h1 h2 h3
    rw [idleStep_silent, idleStep_silent]
    exact idleFactorOf_strictAnti h1 (by linarith) h3
  · intro last t h
    rw [idleStep_silent]
    exact idleFactorOf_zero h
  · intro avg last t h
    unfold idleStep nextLastInputTime
    simp only [if_pos h]
    exact idleFactorOf_one (by norm_num [IDLE_DELAY])

/-- C1 witness: concrete instantiations of every hypothesis-guarded conjunct. -/
theorem C1_idle_state_machine_witness :
    (idleStep 1 5 70).1 = 70 ∧
    (idleStep 0 5 70).1 = 5 ∧
    (idleStep 0 0 3000).2 = 1 ∧
    (idleStep 0 0 4500).2 < (idleStep 0 0 4000).2 ∧
    (idleStep 0 0 5000).2 = 0 ∧
    (idleStep 1 0 99999).2 = 1 :=
  ⟨C1_idle_state_machine.1 1 5 70 (by norm_num),
    C1_idle_state_machine.2.1 0 5 70 (by norm_num),
    C1_idle_state_machine.2.2.2.1 0 3000 (by norm_num [IDLE_DELAY]),
    C1_idle_state_machine.2.2.2.2.1 0 4000 4500 (by norm_num [IDLE_DELAY])
      (by norm_num) (by norm_num [IDLE_DELAY, FADE_DURATION]),
    C1_idle_state_machine.2.2.2.2.2.1 0 5000 (by norm_num [IDLE_DELAY, FADE_DURATION]),
    C1_idle_state_machine.2.2.2.2.2.2 1 0 99999 (by norm_num)⟩

lemma avgNorm_nonneg (data : List ℕ) : 0 ≤ avgNorm data := by
  unfold avgNorm
  positivity

lemma avgNorm_le_one {data : List ℕ} (h : data ≠ []) (hv : ∀ x ∈ data, x ≤ 255) :
    avgNorm data ≤ 1 := by
  unfold avgNorm
  have hlen : 0 < data.length := List.length_pos.2 h
  have hsum : data.sum ≤ data.length * 255 := by
    have h1 := List.sum_le_card_nsmul data 255 hv
    simpa [smul_eq_mul] using h1
  rw [div_div, div_le_one (by positivity)]
  calc (data.sum : ℚ) ≤ (data.length * 255 : ℕ) := by exact_mod_cast hsum
    _ = (data.length : ℚ) * 255 := by push_cast; ring

lemma getD_le_255 {data : List ℕ} (hv : ∀ x ∈ data, x ≤ 255) (i : ℕ) :
    data.getD i 0 ≤ 255 := by
  rcases lt_or_le i data.length with hi | hi
  · rw [List.getD_eq_getElem data 0 hi]
    exact hv _ (List.getElem_mem hi)
  · rw [List.getD_eq_default data 0 hi]
    norm_num

lemma highFreqOf_nonneg (data : List ℕ) : 0 ≤ highFreqOf data := by
  unfold highFreqOf
  positivity

lemma highFreqOf_le_one {data : List ℕ} (hv : ∀ x ∈ data, x ≤ 255) :
    highFreqOf data ≤ 1 := by
  unfold highFreqOf
  have h10 : (data.getD 10 0 : ℚ) ≤ 255 := by exact_mod_cast getD_le_255 hv 10
  have h11 : (data.getD 11 0 : ℚ) ≤ 255 := by exact_mod_cast getD_le_255 hv 11
  rw [div_div, div_le_one (by norm_num)]
  linarith

/-- C2: for byte-valued snapshots (non-empty, enough bins for the high band),
every component of the per-frame `FeatureVector` lies in `[0, 1]`. -/
theorem C2_feature_vector_unit_range
    (inputData outputData : List ℕ)
    (hin : inputData ≠ []) (hout : outputData ≠ [])
    (_hbins : 12 ≤ outputData.length)
    (hinv : ∀ x ∈ inputData, x ≤ 255) (houtv : ∀ x ∈ outputData, x ≤ 255) :
    (0 ≤ (extractFeatures inputData outputData).avgEnergy ∧
      (extractFeatures inputData outputData).avgEnergy ≤ 1) ∧
    (0 ≤ (extractFeatures inputData outputData).highBandEnergy ∧
      (extractFeatures inputData outputData).highBandEnergy ≤ 1) ∧
    (0 ≤ (extractFeatures inputData outputData).inputPresence ∧
      (extractFeatures inputData outputData).inputPresence ≤ 1) := by
  unfold extractFeatures
  exact ⟨⟨avgNorm_nonneg outputData, avgNorm_le_one hout houtv⟩,
    ⟨highFreqOf_nonneg outputData, highFreqOf_le_one houtv⟩,
    ⟨avgNorm_nonneg inputData, avgNorm_le_one hin hinv⟩⟩

/-- C2 witness: a concrete 16-bin input snapshot and 12-bin output snapshot. -/
theorem C2_feature_vector_unit_range_witness :
    (0 ≤ (extractFeatures (List.replicate 16 40) (List.replicate 12 128)).avgEnergy ∧
      (extractFeatures (List.replicate 16 40) (List.replicate 12 128)).avgEnergy ≤ 1) ∧
    (0 ≤ (extractFeatures (List.replicate 16 40) (List.replicate 12 128)).highBandEnergy ∧
      (extractFeatures (List.replicate 16 40) (List.replicate 12 128)).highBandEnergy ≤ 1) ∧
    (0 ≤ (extractFeatures (List.replicate 16 40) (List.replicate 12 128)).inputPresence ∧
      (extractFeatures (List.replicate 16 40) (List.replicate 12 128)).inputPresence ≤ 1) :=
  C2_feature_vector_unit_range (List.replicate 16 40) (List.replicate 12 128)
    (by decide) (by decide) (by decide) (by decide) (by decide)

/-- C3: contrary to the claim, a render-loop step on a component whose
`inputNode` / `outputNode` were never supplied does NOT complete with an
all-zero `FeatureVector`: dereferencing the unassigned analyser field throws,
so the step fails, whichever binding (or both) is absent. -/
theorem C3_unbound_analyser_step_throws :
    (∀ (t rnd : ℚ) (s : VisualsState),
      animationFrame none none t rnd s = .error .typeError) ∧
    (∀ (outD : List ℕ) (t rnd : ℚ) (s : VisualsState),
      animationFrame none (some outD) t rnd s = .error .typeError) ∧
    (∀ (inD : List ℕ) (t rnd : ℚ) (s : VisualsState),
      animationFrame (some inD) none t rnd s = .error .typeError) ∧
    (∀ (t rnd : ℚ) (s : VisualsState),
      ¬ ∃ s' : VisualsState, animationFrame none none t rnd s = .ok s') := by
  refine ⟨fun _ _ _ => rfl, fun _ _ _ _ => rfl, fun _ _ _ _ => rfl, ?_⟩
  rintro t rnd s ⟨s', h⟩
  simp [animationFrame] at h

/-- C5: for both configured analyser resolutions (256 bins from window size
512, and 64 bins from window size 128), the fixed high-band indices 10 and 11
are already within the bin count — clamping them to the bin count is the
identity — so the `highFreq` computation reads only in-bounds entries. -/
theorem C5_high_band_in_bounds :
    (∀ n ∈ analyserBinCounts, ∀ i ∈ HIGH_BAND_INDICES, i < n ∧ min i (n - 1) = i) ∧
    (∀ data : List ℕ, data.length ∈ analyserBinCounts →
      ∃ (h10 : 10 < data.length) (h11 : 11 < data.length),
        highFreqOf data =
          ((data.get ⟨10, h10⟩ : ℚ) + (data.get ⟨11, h11⟩ : ℚ)) / 2 / 255) := by
  constructor
  · decide
  · intro data hlen
    have h11 : 11 < data.length := by
      simp only [analyserBinCounts, List.mem_cons, List.mem_singleton] at hlen
      rcases hlen with h | h
      · omega
      · rcases h with h | h
        · omega
        · simp at h
    have h10 : 10 < data.length := by omega
    refine ⟨h10, h11, ?_⟩
    unfold highFreqOf
    rw [List.getD_eq_getElem data 0 h10, List.getD_eq_getElem data 0 h11]
    rfl

/-- C5 witness: the smaller (64-bin) resolution with a concrete snapshot. -/
theorem C5_high_band_in_bounds_witness :
    ((List.replicate 64 7).length ∈ analyserBinCounts) ∧
    (∃ (h10 : 10 < (List.replicate 64 7).length)
        (h11 : 11 < (List.replicate 64 7).length),
      highFreqOf (List.replicate 64 7) =
        (((List.replicate 64 7).get ⟨10, h10⟩ : ℚ) +
          ((List.replicate 64 7).get ⟨11, h11⟩ : ℚ)) / 2 / 255) :=
  ⟨by decide, C5_high_band_in_bounds.2 (List.replicate 64 7) (by decide)⟩

/-- C6: the bloom strength pushed each frame is the affine function
`1.5 + 2·avgOutput` of the output average energy, multiplied by the frame's
idle factor — zero energy gives the idle-scaled base 1.5, full energy the
base plus its fixed increment 2 — and the bloom radius is the affine function
`0.6 + 0.4·highFreq` of the high-band energy alone. -/
theorem C6_bloom_affine :
    (∀ (inD outD : List ℕ) (t rnd : ℚ) (s : VisualsState),
      (animationStep inD outD t rnd s).bloomStrength =
        (3/2 + 2 * avgNorm outD) * (animationStep inD outD t rnd s).backdropIdleFactor) ∧
    (∀ (inD outD : List ℕ) (t rnd : ℚ) (s : VisualsState), avgNorm outD = 0 →
      (animationStep inD outD t rnd s).bloomStrength =
        3/2 * (animationStep inD outD t rnd s).backdropIdleFactor) ∧
    (∀ (inD outD : List ℕ) (t rnd : ℚ) (s : VisualsState), avgNorm outD = 1 →
      (animationStep inD outD t rnd s).bloomStrength =
        (3/2 + 2) * (animationStep inD outD t rnd s).backdropIdleFactor) ∧
    (∀ (inD outD : List ℕ) (t rnd : ℚ) (s : VisualsState),
      (animationStep inD outD t rnd s).bloomRadius = 3/5 + 2/5 * highFreqOf outD) := by
  refine ⟨?_, ?_, ?_, ?_⟩
  · intro inD outD t rnd s
    simp only [animationStep]
    ring
  · intro inD outD t rnd s h
    simp only [animationStep, h]
    ring
  · intro inD outD t rnd s h
    simp only [animationStep, h]
    ring
  · intro inD outD t rnd s
    simp only [animationStep]
    ring

/-- C6 witness: zero-energy and full-energy output snapshots. -/
theorem C6_bloom_affine_witness :
    avgNorm (List.replicate 12 0) = 0 ∧
    (animationStep [] (List.replicate 12 0) 0 0 sampleState).bloomStrength =
      3/2 * (animationStep [] (List.replicate 12 0) 0 0 sampleState).backdropIdleFactor ∧
    avgNorm (List.replicate 12 255) = 1 ∧
    (animationStep [] (List.replicate 12 255) 0 0 sampleState).bloomStrength =
      (3/2 + 2) *
        (animationStep [] (List.replicate 12 255) 0 0 sampleState).backdropIdleFactor :=
  ⟨by simp [avgNorm, List.sum_replicate],
    C6_bloom_affine.2.1 [] (List.replicate 12 0) 0 0 sampleState
      (by simp [avgNorm, List.sum_replicate]),
    by simp [avgNorm, List.sum_replicate]; norm_num,
    C6_bloom_affine.2.2.1 [] (List.replicate 12 255) 0 0 sampleState
      (by simp [avgNorm, List.sum_replicate]; norm_num)⟩

/-- C7: the afterimage damp pushed each frame is the linear interpolation
from the long-trail constant 0.96 to the short-trail constant 0.6 with weight
`avgOutput²` — equivalently `24/25 - 9/25·avgOutput²` — hitting 0.96 at zero
energy and 0.6 at full energy, and it is not an affine function of
`avgOutput` (it is genuinely quadratic). -/
theorem C7_afterimage_damp_quadratic :
    (∀ (inD outD : List ℕ) (t rnd : ℚ) (s : VisualsState),
      (animationStep inD outD t rnd s).afterimageDamp =
        lerp (24/25) (3/5) ((avgNorm outD)^2)) ∧
    (∀ (inD outD : List ℕ) (t rnd : ℚ) (s : VisualsState),
      (animationStep inD outD t rnd s).afterimageDamp =
        24/25 - 9/25 * (avgNorm outD)^2) ∧
    (∀ (inD outD : List ℕ) (t rnd : ℚ) (s : VisualsState), avgNorm outD = 0 →
      (animationStep inD outD t rnd s).afterimageDamp = 24/25) ∧
    (∀ (inD outD : List ℕ) (t rnd : ℚ) (s : VisualsState), avgNorm outD = 1 →
      (animationStep inD outD t rnd s).afterimageDamp = 3/5) ∧
    ¬ (∃ α β : ℚ, ∀ outD : List ℕ,
        (animationStep [] outD 0 0 sampleState).afterimageDamp =
          α + β * avgNorm outD) := by
  refine ⟨?_, ?_, ?_, ?_, ?_⟩
  · intro inD outD t rnd s
    simp only [animationStep, lerp]
    norm_num
  · intro inD outD t rnd s
    simp only [animationStep, lerp]
    ring
  · intro inD outD t rnd s h
    simp only [animationStep, lerp, h]
    norm_num
  · intro inD outD t rnd s h
    simp only [animationStep, lerp, h]
    norm_num
  · rintro ⟨α, β, h⟩
    have h0 := h [0]
    have h1 := h [255]
    have hH := h [255, 0]
    simp only [animationStep, lerp, avgNorm] at h0 h1 hH
    norm_num at h0 h1 hH
    linarith

/-- C7 witness: zero-energy and full-energy output snapshots hit the long-
and short-trail constants. -/
theorem C7_afterimage_damp_quadratic_witness :
    avgNorm (List.replicate 12 0) = 0 ∧
    (animationStep [] (List.replicate 12 0) 0 0 sampleState).afterimageDamp = 24/25 ∧
    avgNorm (List.replicate 12 255) = 1 ∧
    (animationStep [] (List.replicate 12 255) 0 0 sampleState).afterimageDamp = 3/5 :=
  ⟨by simp [avgNorm, List.sum_replicate],
    C7_afterimage_damp_quadratic.2.2.1 [] (List.replicate 12 0) 0 0 sampleState
      (by simp [avgNorm, List.sum_replicate]),
    by simp [avgNorm, List.sum_replicate]; norm_num,
    C7_afterimage_damp_quadratic.2.2.2.1 [] (List.replicate 12 255) 0 0 sampleState
      (by simp [avgNorm, List.sum_replicate]; norm_num)⟩

/-- C10: assuming non-decreasing frame timestamps (`lastInputTime ≤ t` on
entry), a step never decreases `lastInputTime`, keeps it at or below the
frame time, keeps the elapsed time and the idle progress non-negative, and
keeps the idle factor in `[0, 1]`. -/
theorem C10_timestamp_monotone :
    ∀ avg last t : ℚ, last ≤ t →
      last ≤ (idleStep avg last t).1 ∧ (idleStep avg last t).1 ≤ t ∧
      0 ≤ t - (idleStep avg last t).1 ∧
      0 ≤ idleProgress (t - (idleStep avg last t).1) ∧
      0 ≤ (idleStep avg last t).2 ∧ (idleStep avg last t).2 ≤ 1 := by
  intro avg last t h
  have hprog : ∀ e : ℚ, 0 ≤ idleProgress e := fun e => le_max_left 0 _
  unfold idleStep nextLastInputTime
  by_cases hc : avg > 1/100
  · simp only [if_pos hc]
    exact ⟨h, le_refl t, by linarith, hprog _, (idleFactorOf_bounds _).1,
      (idleFactorOf_bounds _).2⟩
  · simp only [if_neg hc]
    exact ⟨le_refl last, h, by linarith, hprog _, (idleFactorOf_bounds _).1,
      (idleFactorOf_bounds _).2⟩

/-- C10 witness: a concrete step with `last ≤ t`. -/
theorem C10_timestamp_monotone_witness :
    (1:ℚ) ≤ 4000 ∧
    (1 ≤ (idleStep 0 1 4000).1 ∧ (idleStep 0 1 4000).1 ≤ 4000 ∧
      0 ≤ 4000 - (idleStep 0 1 4000).1 ∧
      0 ≤ idleProgress (4000 - (idleStep 0 1 4000).1) ∧
      0 ≤ (idleStep 0 1 4000).2 ∧ (idleStep 0 1 4000).2 ≤ 1) :=
  ⟨by norm_num, C10_timestamp_monotone 0 1 4000 (by norm_num)⟩

lemma animationStep_lastInputTime (inD outD : List ℕ) (t rnd : ℚ) (s : VisualsState) :
    (animationStep inD outD t rnd s).lastInputTime =
      nextLastInputTime (avgNorm inD) s.lastInputTime t := rfl

lemma animationStep_idleFactor (inD outD : List ℕ) (t rnd : ℚ) (s : VisualsState) :
    (animationStep inD outD t rnd s).backdropIdleFactor =
      idleFactorOf (t - (animationStep inD outD t rnd s).lastInputTime) := rfl

lemma nextLastInputTime_spike {avg : ℚ} (last t : ℚ) (h : 1/100 < avg) :
    nextLastInputTime avg last t = t := if_pos h

lemma nextLastInputTime_quiet {avg : ℚ} (last t : ℚ) (h : avg ≤ 1/100) :
    nextLastInputTime avg last t = last := if_neg (not_lt.2 h)

/-- C4: the idle factor a frame pushes is always in `[0, 1]` (and the
backdrop and particle materials receive the same value); across two
consecutive frames at non-decreasing timestamps, either the second frame saw
input presence above the threshold — in which case the factor is reset
exactly to 1, the start of the smoothing curve — or the factor decays
monotonically with the per-frame change bounded by the smoothing curve's
Lipschitz constant `15/8 / FADE_DURATION` times the elapsed time (no
discontinuous jump). -/
theorem C4_idle_factor_continuity :
    (∀ (inD outD : List ℕ) (t rnd : ℚ) (s : VisualsState),
      0 ≤ (animationStep inD outD t rnd s).backdropIdleFactor ∧
      (animationStep inD outD t rnd s).backdropIdleFactor ≤ 1 ∧
      (animationStep inD outD t rnd s).particleIdleFactor =
        (animationStep inD outD t rnd s).backdropIdleFactor) ∧
    (∀ (inD1 outD1 inD2 outD2 : List ℕ) (t1 t2 rnd1 rnd2 : ℚ) (s : VisualsState),
      t1 ≤ t2 → 1/100 < avgNorm inD2 →
      (animationStep inD2 outD2 t2 rnd2
        (animationStep inD1 outD1 t1 rnd1 s)).backdropIdleFactor = 1) ∧
    (∀ (inD1 outD1 inD2 outD2 : List ℕ) (t1 t2 rnd1 rnd2 : ℚ) (s : VisualsState),
      t1 ≤ t2 → avgNorm inD2 ≤ 1/100 →
      (animationStep inD2 outD2 t2 rnd2
          (animationStep inD1 outD1 t1 rnd1 s)).backdropIdleFactor ≤
        (animationStep inD1 outD1 t1 rnd1 s).backdropIdleFactor ∧
      (animationStep inD1 outD1 t1 rnd1 s).backdropIdleFactor -
        (animationStep inD2 outD2 t2 rnd2
          (animationStep inD1 outD1 t1 rnd1 s)).backdropIdleFactor ≤
        15/8 * ((t2 - t1) / FADE_DURATION)) := by
  refine ⟨?_, ?_, ?_⟩
  · intro inD outD t rnd s
    rw [animationStep_idleFactor]
    exact ⟨(idleFactorOf_bounds _).1, (idleFactorOf_bounds _).2, rfl⟩
  · intro inD1 outD1 inD2 outD2 t1 t2 rnd1 rnd2 s h12 hsp
    rw [animationStep_idleFactor, animationStep_lastInputTime,
      nextLastInputTime_spike _ _ hsp, sub_self]
    exact idleFactorOf_one (by norm_num [IDLE_DELAY])
  · intro inD1 outD1 inD2 outD2 t1 t2 rnd1 rnd2 s h12 hq
    rw [animationStep_idleFactor, animationStep_lastInputTime,
      nextLastInputTime_quiet _ _ hq, animationStep_lastInputTime,
      animationStep_idleFactor, animationStep_lastInputTime]
    set L := nextLastInputTime (avgNorm inD1) s.lastInputTime t1 with hL
    constructor
    · exact idleFactorOf_antitone (by linarith)
    · have hl := idleFactorOf_lip (show t1 - L ≤ t2 - L by linarith)
      have he : (t2 - L) - (t1 - L) = t2 - t1 := by ring
      rw [he] at hl
      exact hl

/-- C4 witness: a spiking second frame resets to 1; a quiet second frame
decays within the Lipschitz bound. -/
theorem C4_idle_factor_continuity_witness :
    ((10:ℚ) ≤ 20 ∧ 1/100 < avgNorm [255] ∧
      (animationStep [255] [] 20 0
        (animationStep [0] [] 10 0 sampleState)).backdropIdleFactor = 1) ∧
    (avgNorm [0] ≤ 1/100 ∧
      ((animationStep [0] [] 20 0
          (animationStep [0] [] 10 0 sampleState)).backdropIdleFactor ≤
        (animationStep [0] [] 10 0 sampleState).backdropIdleFactor ∧
      (animationStep [0] [] 10 0 sampleState).backdropIdleFactor -
        (animationStep [0] [] 20 0
          (animationStep [0] [] 10 0 sampleState)).backdropIdleFactor ≤
        15/8 * ((20 - 10) / FADE_DURATION))) :=
  ⟨⟨by norm_num, by simp [avgNorm]; norm_num,
    C4_idle_factor_continuity.2.1 [0] [] [255] [] 10 20 0 0 sampleState
      (by norm_num) (by simp [avgNorm]; norm_num)⟩,
    ⟨by simp [avgNorm],
    C4_idle_factor_continuity.2.2 [0] [] [0] [] 10 20 0 0 sampleState
      (by norm_num) (by simp [avgNorm])⟩⟩

/-- C8: every backdrop fragment's alpha is 1 and its color is the
`idleFactor`-independent shader color scaled componentwise by `idleFactor`
(the color at factor `idle` equals `idle` times the color at factor 1, for
any interpretation of the transcendental GLSL primitives); at
`idleFactor = 0` every fragment is exactly black `(0, 0, 0, 1)` — the
backdrop is darkened, not removed. -/
theorem C8_backdrop_idle_scaling :
    ∀ (m : MathPrims) (res : ℚ × ℚ) (rand idle avg high : ℚ) (coord : ℚ × ℚ),
      (backdropFragment m res rand idle avg high coord).2.2.2 = 1 ∧
      (backdropFragment m res rand idle avg high coord).1 =
        idle * (backdropFragment m res rand 1 avg high coord).1 ∧
      (backdropFragment m res rand idle avg high coord).2.1 =
        idle * (backdropFragment m res rand 1 avg high coord).2.1 ∧
      (backdropFragment m res rand idle avg high coord).2.2.1 =
        idle * (backdropFragment m res rand 1 avg high coord).2.2.1 ∧
      backdropFragment m res rand 0 avg high coord = (0, 0, 0, 1) := by
  intro m res rand idle avg high coord
  unfold backdropFragment
  refine ⟨rfl, by ring, by ring, by ring, ?_⟩
  simp

set_option maxRecDepth 100000 in
/-- C9: after construction the particle field holds exactly
`PARTICLE_COUNT = 5000` base positions; an animation frame rewrites only the
per-frame uniforms and carried timestamp, leaving `aStartPosition` (and
`aRandom`) untouched in count and values, so after any number of frames the
base positions are exactly those assigned at construction. -/
theorem C9_base_positions_immutable :
    PARTICLE_COUNT = 5000 ∧
    (∀ (m : MathPrims) (rand : ℕ → ℚ) (t0 : ℚ),
      (initState m rand t0).startPositions.length = PARTICLE_COUNT) ∧
    (∀ (inD outD : List ℕ) (t rnd : ℚ) (s : VisualsState),
      (animationStep inD outD t rnd s).startPositions = s.startPositions ∧
      (animationStep inD outD t rnd s).aRandom = s.aRandom) ∧
    (∀ (m : MathPrims) (rand : ℕ → ℚ) (t0 : ℚ)
        (frames : ℕ → List ℕ × List ℕ × ℚ × ℚ) (n : ℕ),
      (runFrames frames n (initState m rand t0)).startPositions =
        (initState m rand t0).startPositions) := by
  have hrun : ∀ (frames : ℕ → List ℕ × List ℕ × ℚ × ℚ) (n : ℕ) (s : VisualsState),
      (runFrames frames n s).startPositions = s.startPositions := by
    intro frames n
    induction n with
    | zero => intro s; rfl
    | succ k ih =>
      intro s
      rw [runFrames, ih]
      rfl
  refine ⟨rfl, ?_, ?_, ?_⟩
  · intro m rand t0
    show (initStartPositions m).length = PARTICLE_COUNT
    unfold initStartPositions
    rw [List.length_map, List.length_range]
  · intro inD outD t rnd s
    exact ⟨rfl, rfl⟩
  · intro m rand t0 frames n
    exact hrun frames n _

end Visuals3D
